import Mathlib

/-!
# Verification of the mcp-saas core against its specification

Shallow embedding of the core of the `mcp-saas` repository:

* `composite.py` — `MountedInstance` name/URI prefixing and the
  `MCPSaaSComposite.mount` state transition;
* `mcp_stdio.py` — the `MCPStdioWrapper` framed channel: pending-request
  correlation, message handling, `start`;
* `transport.py` — `MCPSaaSSessionManager`: session creation, lookup and
  the expiry sweep.

Strings are modelled as `List Char` (Python `str`).  Protocol payloads are
opaque (`Val := Nat`), matching the spec's statement that payloads are
treated opaquely beyond the id/method/params/result/error envelope.
-/

/-! ## Python string primitives used by `composite.py` -/

/-- Python `str.removeprefix`: drops `pfx` from the front of `s` when `s`
starts with `pfx`, otherwise returns `s` unchanged. -/
def removeprefix (s pfx : List Char) : List Char :=
  if pfx.isPrefixOf s then s.drop pfx.length else s

/-! ## `MountedInstance` tool/prompt prefixing (`composite.py` lines 59–93) -/

/-- `MountedInstance.add_tool_prefix`: `f"{self.prefix}_{tool_name}"`. -/
def add_tool_prefix (pfx name : List Char) : List Char :=
  pfx ++ '_' :: name

/-- `MountedInstance.strip_tool_prefix`: `tool_name.removeprefix(f"{self.prefix}_")`. -/
def strip_tool_prefix (pfx name : List Char) : List Char :=
  removeprefix name (pfx ++ ['_'])

/-- `MountedInstance.add_prompt_prefix`: `f"{self.prefix}_{prompt_name}"`. -/
def add_prompt_prefix (pfx name : List Char) : List Char :=
  pfx ++ '_' :: name

/-- `MountedInstance.strip_prompt_prefix`: `prompt_name.removeprefix(f"{self.prefix}_")`. -/
def strip_prompt_prefix (pfx name : List Char) : List Char :=
  removeprefix name (pfx ++ ['_'])

/-! ### Helper lemmas -/

theorem isPrefixOf_append_self (p s : List Char) : p.isPrefixOf (p ++ s) = true := by
  induction p with
  | nil => simp [List.isPrefixOf]
  | cons a as ih => simp [List.isPrefixOf, ih]

theorem removeprefix_append (p s : List Char) : removeprefix (p ++ s) p = s := by
  simp [ removeprefix, isPrefixOf_append_self, List.drop_left]

/-- **C2**: for every prefix `p` and name `n`, the qualified tool/prompt name
is exactly `p ++ "_" ++ n`, stripping recovers `n` (round-trip identity),
and stripping removes exactly one leading prefix segment, never recursively:
stripping a doubly-qualified name yields the singly-qualified name. -/
theorem c2_tool_prompt_prefix_roundtrip (pfx n : List Char) :
    add_tool_prefix pfx n = pfx ++ ['_'] ++ n
    ∧ strip_tool_prefix pfx ( add_tool_prefix pfx n) = n
    ∧ add_prompt_prefix pfx n = pfx ++ ['_'] ++ n
    ∧ strip_prompt_prefix pfx ( add_prompt_prefix pfx n) = n
    ∧ strip_tool_prefix pfx ( add_tool_prefix pfx ( add_tool_prefix pfx n)) =
        add_tool_prefix pfx n
    ∧ strip_prompt_prefix pfx ( add_prompt_prefix pfx ( add_prompt_prefix pfx n)) =
        add_prompt_prefix pfx n := by
  refine ⟨by simp [ add_tool_prefix], ?_, by simp [ add_prompt_prefix], ?_, ?_, ?_⟩ <;>
    simpa [ add_tool_prefix, strip_tool_prefix, add_prompt_prefix, strip_prompt_prefix,
      List.append_assoc] using removeprefix_append (pfx ++ ['_']) _

/-! ## `MountedInstance` resource-URI prefixing (`composite.py` lines 95–142)

The code parses URIs with the Python regex `^([^:]+://)(.*?)$` via
`re.match`.  Its semantics, modelled faithfully below:

* `[^:]+` greedily matches a maximal nonempty run of non-colon characters
  (newlines included), which must be followed by the literal `://`; by
  backtracking, the regex matches iff the text before the first `:` is
  nonempty and that first `:` is followed by `//`.
* `(.*?)$` is a lazy run of non-newline characters ending at `$`, which in
  Python matches at the end of the string or just before a newline that
  ends the string.  So the group is the whole remainder when it contains no
  newline, the remainder minus a single trailing newline when that is its
  only newline, and otherwise the regex fails to match. -/

/-- The `(.*?)$` tail of the regexes in `composite.py`: `some` is the
captured group, `none` a failed match. -/
def lazyTailToEol (rest : List Char) : Option (List Char) :=
  if '\n' ∈ rest then
    if rest.getLast? = some '\n' ∧ '\n' ∉ rest.dropLast then some rest.dropLast
    else none
  else some rest

/-- The character class `[^:]` of the URI regex. -/
def notColon (c : Char) : Bool := c ≠ ':'

/-- The `^([^:]+://)` head of the URI regex: splits off the protocol group
(including `://`) from the remainder. -/
def schemeSplit (uri : List Char) : Option (List Char × List Char) :=
  let scheme := uri.takeWhile notColon
  let rest := uri.drop scheme.length
  if scheme ≠ [] ∧ rest.take 3 = [':', '/', '/'] then
    some (scheme ++ [':', '/', '/'], rest.drop 3)
  else none

/-- `re.match(r"^([^:]+://)(.*?)$", uri)`: `some (protocol, path)` groups,
`none` when the regex does not match. -/
def uriMatch (uri : List Char) : Option (List Char × List Char) :=
  match schemeSplit uri with
  | none => none
  | some (proto, rest) =>
    match lazyTailToEol rest with
    | none => none
    | some path => some (proto, path)

/-- `MountedInstance._add_resource_prefix`: empty prefix returns the URI
unchanged; a URI the regex rejects raises `ValueError` (modelled as `none`);
otherwise returns `f"{protocol}{prefix}/{path}"`. -/
def add_resource_prefix (uri pfx : List Char) : Option (List Char) :=
  if pfx = [] then some uri
  else match uriMatch uri with
    | none => none
    | some (proto, path) => some (proto ++ pfx ++ '/' :: path)

/-- `MountedInstance._remove_resource_prefix`: empty prefix or a URI the
regex rejects returns the URI unchanged; otherwise the path must match
`^<escaped prefix>/(.*?)$` — if it does, returns `f"{protocol}{group1}"`,
else the URI unchanged. -/
def remove_resource_prefix (uri pfx : List Char) : List Char :=
  if pfx = [] then uri
  else match uriMatch uri with
    | none => uri
    | some (proto, path) =>
      if (pfx ++ ['/']).isPrefixOf path then
        match lazyTailToEol (path.drop (pfx.length + 1)) with
        | none => uri
        | some g => proto ++ g
      else uri

/-- `MountedInstance._has_resource_prefix`: true iff the URI parses and its
path starts with `prefix + "/"` (empty prefix: false). -/
def has_resource_prefix (uri pfx : List Char) : Bool :=
  if pfx = [] then false
  else match uriMatch uri with
    | none => false
    | some (_, path) => (pfx ++ ['/']).isPrefixOf path

/-! ### Helper lemmas for the URI regex model -/

theorem lazyTailToEol_no_newline {r : List Char} (h : '\n' ∉ r) :
    lazyTailToEol r = some r := by
  simp [lazyTailToEol, h]

theorem schemeSplit_append (s r : List Char) (hs : s ≠ []) (hc : ':' ∉ s) :
    schemeSplit (s ++ ':' :: '/' :: '/' :: r) = some (s ++ [':', '/', '/'], r) := by
  have hpos : ∀ c ∈ s, notColon c = true := by
    intro c hcs
    simp only [notColon, decide_eq_true_eq]
    exact fun h => hc (h ▸ hcs)
  have htw : (s ++ ':' :: '/' :: '/' :: r).takeWhile notColon = s := by
    rw [List.takeWhile_append_of_pos hpos]
    have : notColon ':' = false := by simp [notColon]
    simp [List.takeWhile_cons, this]
  have hdrop : (s ++ ':' :: '/' :: '/' :: r).drop s.length = ':' :: '/' :: '/' :: r :=
    List.drop_left s _
  simp [schemeSplit, htw, hdrop, hs]

theorem uriMatch_append (s r : List Char) (hs : s ≠ []) (hc : ':' ∉ s)
    (hn : '\n' ∉ r) :
    uriMatch (s ++ ':' :: '/' :: '/' :: r) = some (s ++ [':', '/', '/'], r) := by
  simp [uriMatch, schemeSplit_append s r hs hc, lazyTailToEol_no_newline hn]

/-- **C3 (counterexample)**: the URI `"s://a\n"` is of the form
`scheme://path` (scheme `"s"`, path `"a\n"`), yet the round trip loses the
trailing newline: the regex's `$` anchor lets `(.*?)` stop just before a
newline that ends the string, so `_add_resource_prefix` captures the path
group `"a"` and the stripped result is `"s://a" ≠ "s://a\n"`. -/
theorem c3_resource_roundtrip_counterexample :
    add_resource_prefix ("s://a\n".toList) ("p".toList) = some ("s://p/a".toList)
    ∧ remove_resource_prefix ("s://p/a".toList) ("p".toList) = "s://a".toList
    ∧ "s://a".toList ≠ "s://a\n".toList := by decide

/-- **C3 (amended)**: for every URI `scheme ++ "://" ++ path` with a
nonempty colon-free scheme and a newline-free path, and every newline-free
prefix, adding the prefix succeeds and stripping it from the qualified URI
returns the original URI; and stripping any URI that does not carry the
prefix (its path does not begin with `prefix ++ "/"`, or it does not parse
as `scheme://path`) returns that URI unchanged rather than failing.  (The
claim fails as stated only because the regex `(.*?)$` silently drops a
newline that ends the path, so URIs with a trailing-newline path do not
round-trip; newlines elsewhere in path or prefix make the strip regex fail
to match, also breaking the round trip.) -/
theorem c3_resource_roundtrip_amended :
    (∀ (s path pfx : List Char), s ≠ [] → ':' ∉ s → '\n' ∉ path → '\n' ∉ pfx →
      ∃ q, add_resource_prefix (s ++ ':' :: '/' :: '/' :: path) pfx = some q ∧
        remove_resource_prefix q pfx = s ++ ':' :: '/' :: '/' :: path)
    ∧ (∀ (uri pfx : List Char), has_resource_prefix uri pfx = false →
        remove_resource_prefix uri pfx = uri) := by
  constructor
  · intro s path pfx hs hc hnp hnx
    by_cases hp : pfx = []
    · subst hp
      refine ⟨s ++ ':' :: '/' :: '/' :: path, ?_, ?_⟩
      · simp [ add_resource_prefix]
      · simp [ remove_resource_prefix]
    · have hnr : '\n' ∉ pfx ++ '/' :: path := by
        intro h
        rcases List.mem_append.1 h with h | h
        · exact hnx h
        · rcases List.mem_cons.1 h with h | h
          · exact absurd h (by decide)
          · exact hnp h
      have hadd : add_resource_prefix (s ++ ':' :: '/' :: '/' :: path) pfx =
          some ((s ++ [':', '/', '/']) ++ (pfx ++ '/' :: path)) := by
        simp [ add_resource_prefix, hp, uriMatch_append s path hs hc hnp]
      refine ⟨_, hadd, ?_⟩
      have hq : (s ++ [':', '/', '/']) ++ (pfx ++ '/' :: path) =
          s ++ ':' :: '/' :: '/' :: (pfx ++ '/' :: path) := by
        simp [List.append_assoc]
      have hum : uriMatch (s ++ ':' :: '/' :: '/' :: (pfx ++ '/' :: path)) =
          some (s ++ [':', '/', '/'], pfx ++ '/' :: path) :=
        uriMatch_append s _ hs hc hnr
      have hsplit : pfx ++ '/' :: path = (pfx ++ ['/']) ++ path := by simp
      have hpre : (pfx ++ ['/']).isPrefixOf (pfx ++ '/' :: path) = true := by
        rw [hsplit]; exact isPrefixOf_append_self _ _
      have hdrop : (pfx ++ '/' :: path).drop (pfx.length + 1) = path := by
        rw [hsplit]
        have hlen : (pfx ++ ['/']).length = pfx.length + 1 := by simp
        rw [← hlen]; exact List.drop_left _ _
      rw [hq]
      unfold remove_resource_prefix
      rw [if_neg hp, hum]
      simp only [hpre, hdrop, lazyTailToEol_no_newline hnp, if_true]
      simp [List.append_assoc]
  · intro uri pfx h
    by_cases hp : pfx = []
    · simp [ remove_resource_prefix, hp]
    · cases huM : uriMatch uri with
      | none => simp [ remove_resource_prefix, hp, huM]
      | some pr =>
        obtain ⟨proto, path⟩ := pr
        have hpre : (pfx ++ ['/']).isPrefixOf path = false := by
          simpa [ has_resource_prefix, hp, huM] using h
        simp [ remove_resource_prefix, hp, huM, hpre]

/-- Witness for `c3_resource_roundtrip_amended` at concrete inputs:
scheme `"s"`, path `"a"`, prefix `"p"`, and the unprefixed URI `"x://y"`. -/
theorem c3_resource_roundtrip_amended_witness :
    (∃ q, add_resource_prefix (['s'] ++ ':' :: '/' :: '/' :: ['a']) ['p'] = some q ∧
        remove_resource_prefix q ['p'] = ['s'] ++ ':' :: '/' :: '/' :: ['a'])
    ∧ remove_resource_prefix ("x://y".toList) ['p'] = "x://y".toList :=
  ⟨c3_resource_roundtrip_amended.1 ['s'] ['a'] ['p']
      (by decide) (by decide) (by decide) (by decide),
   c3_resource_roundtrip_amended.2 ("x://y".toList) ['p'] (by decide)⟩

/-! ## Framed channel: `MCPStdioWrapper` (`mcp_stdio.py`)

Correlation ids (`uuid4` strings) are abstracted as `ReqId := Nat`;
protocol payloads (`result`, `error`, `params`, JSON method strings) are
opaque values `Val := Nat`.  The `response_handlers` dict is modelled by
its key set together with a log of the resolutions delivered to the
registered futures (`Future.set_result` calls); subscriber/queue delivery
of events is modelled as an ordered event log. -/

abbrev ReqId := Nat

abbrev Val := Nat

/-- A decoded JSON stdout line: the `id` / `method` / `params` / `result` /
`error` fields of the envelope, each possibly absent. -/
structure JsonMsg where
  msgId : Option ReqId
  methodField : Option Val
  paramsField : Option Val
  resultField : Option Val
  errorField : Option Val
deriving DecidableEq, Repr

/-- Events pushed to subscribers (`_emit_event`). -/
inductive ChannelEvent where
  | notification (method params : Option Val)
  | rawOutput (line : Val)
  | errorOutput (msg : Val)
deriving DecidableEq, Repr

/-- Observable state of one `MCPStdioWrapper`: pending correlation ids
(`response_handlers` keys), resolutions delivered to futures, and emitted
events. -/
structure ChannelState where
  pending : List ReqId
  resolved : List (ReqId × Option Val × Option Val)
  events : List ChannelEvent
deriving DecidableEq, Repr

/-- Python dict assignment `response_handlers[i] = fut` on the key set. -/
def insertKey (i : ReqId) (l : List ReqId) : List ReqId :=
  i :: l.filter (fun j => j ≠ i)

/-- Python `response_handlers.pop(i, None)` on the key set. -/
def removeKey (i : ReqId) (l : List ReqId) : List ReqId :=
  l.filter (fun j => j ≠ i)

/-- `MCPStdioWrapper._handle_mcp_message`: a line carrying an `id` that is
a pending key pops the handler and resolves it with the line's
`result`/`error`; a line carrying an `id` that is not pending does nothing;
a line without an `id` is emitted as a `notification` event with the line's
`method` and `params`. -/
def handleMcpMessage (data : JsonMsg) (st : ChannelState) : ChannelState :=
  match data.msgId with
  | some i =>
    if i ∈ st.pending then
      { st with
        pending := removeKey i st.pending,
        resolved := (i, data.resultField, data.errorField) :: st.resolved }
    else st
  | none =>
    { st with
      events := st.events ++ [ChannelEvent.notification data.methodField data.paramsField] }

/-- `MCPStdioWrapper._handle_stdout`, one line: a line that parses as JSON
goes to `_handle_mcp_message`; a line that fails to parse is forwarded
verbatim as a `raw_output` event. -/
def handleStdoutLine (line : Except Val JsonMsg) (st : ChannelState) : ChannelState :=
  match line with
  | .ok data => handleMcpMessage data st
  | .error raw => { st with events := st.events ++ [ChannelEvent.rawOutput raw] }

/-- How one `send_request` call completes after registering its pending
entry: a correlated stdout line arrives, the 30-second timeout elapses, or
the stdin write raises. -/
inductive SendOutcome where
  | response (result err : Option Val)
  | timeout
  | writeError
deriving DecidableEq, Repr

/-- What `send_request` returns or raises. -/
inductive SendResult where
  | ok (result err : Option Val)
  | requestTimeout
  | sendFailure
deriving DecidableEq, Repr

/-- `MCPStdioWrapper.send_request` for a started channel: registers the
fresh correlation id `i` in `response_handlers`, then either (a) the stdout
reader delivers a line with matching `id` and the awaited future's
`MCPResponse(result, error)` is returned, (b) `asyncio.wait_for` times out,
the entry is popped and a timeout error is raised, or (c) the write fails,
the entry is popped and a send failure is raised.  (The code raises generic
`Exception`s; the spec's taxonomy names (b) `RequestTimeout`.) -/
def sendRequest (i : ReqId) (outcome : SendOutcome) (st : ChannelState) :
    SendResult × ChannelState :=
  let st1 : ChannelState := { st with pending := insertKey i st.pending }
  match outcome with
  | .response r e =>
    (SendResult.ok r e, handleMcpMessage ⟨some i, none, none, r, e⟩ st1)
  | .timeout =>
    (SendResult.requestTimeout, { st1 with pending := removeKey i st1.pending })
  | .writeError =>
    (SendResult.sendFailure, { st1 with pending := removeKey i st1.pending })

theorem not_mem_removeKey (i : ReqId) (l : List ReqId) : i ∉ removeKey i l := by
  intro h
  rcases List.mem_filter.1 h with ⟨-, hdec⟩
  simp at hdec

/-- **C1**: a `send_request` that times out removes its pending entry and
fails with the `RequestTimeout` error, and a late response carrying that
correlation id arriving afterwards is dropped silently: the channel state
is completely unchanged (no crash, no stale resolution, no event, no
pending entry re-created). -/
theorem c1_timeout_removes_and_late_response_dropped
    (i : ReqId) (st : ChannelState) (late : JsonMsg) (hlate : late.msgId = some i) :
    (sendRequest i SendOutcome.timeout st).1 = SendResult.requestTimeout
    ∧ i ∉ (sendRequest i SendOutcome.timeout st).2.pending
    ∧ handleMcpMessage late (sendRequest i SendOutcome.timeout st).2 =
        (sendRequest i SendOutcome.timeout st).2 := by
  refine ⟨rfl, not_mem_removeKey i _, ?_⟩
  have hnm : i ∉ (sendRequest i SendOutcome.timeout st).2.pending :=
    not_mem_removeKey i _
  simp [handleMcpMessage, hlate, hnm]

/-- Witness for `c1_timeout_removes_and_late_response_dropped`: correlation
id `0`, empty initial state, late response line `{"id": 0, "result": 3}`. -/
theorem c1_timeout_witness :
    (sendRequest 0 SendOutcome.timeout ⟨[], [], []⟩).1 = SendResult.requestTimeout
    ∧ 0 ∉ (sendRequest 0 SendOutcome.timeout ⟨[], [], []⟩).2.pending
    ∧ handleMcpMessage ⟨some 0, none, none, some 3, none⟩
        (sendRequest 0 SendOutcome.timeout ⟨[], [], []⟩).2 =
        (sendRequest 0 SendOutcome.timeout ⟨[], [], []⟩).2 :=
  c1_timeout_removes_and_late_response_dropped 0 ⟨[], [], []⟩
    ⟨some 0, none, none, some 3, none⟩ rfl

/-- **C10**: whichever way a `send_request` call completes — a response is
returned, the timeout elapses, or the stdin write fails — the pending map
afterwards contains no entry for that call's correlation id. -/
theorem c10_no_pending_leak (i : ReqId) (outcome : SendOutcome) (st : ChannelState) :
    i ∉ (sendRequest i outcome st).2.pending := by
  cases outcome with
  | response r e =>
    have hmem : i ∈ (insertKey i st.pending) := List.mem_cons_self i _
    simp only [sendRequest, handleMcpMessage, hmem, if_true]
    exact not_mem_removeKey i _
  | timeout => exact not_mem_removeKey i _
  | writeError => exact not_mem_removeKey i _

/-- **C9 (counterexample)**: a well-formed JSON line carrying `id = 5` when
no request is pending is *not* emitted as a notification event — the code's
`if 'id' in data` branch simply does nothing for an unknown id, so the line
is silently discarded and the state is unchanged. -/
theorem c9_unmatched_id_counterexample :
    (handleMcpMessage ⟨some 5, some 1, some 2, none, none⟩ ⟨[], [], []⟩).events = []
    ∧ handleMcpMessage ⟨some 5, some 1, some 2, none, none⟩ ⟨[], [], []⟩ =
        ⟨[], [], []⟩ := by decide

/-- **C9 (amended)**: only a well-formed JSON line carrying *no* `id` field
at all is emitted to subscribers as an unsolicited notification event
(with the line's `method` and `params`); a line carrying an `id` that
matches no pending request is silently discarded with no state change. -/
theorem c9_notification_vs_unmatched_id
    (method params result err : Option Val) (st st' : ChannelState)
    (i : ReqId) (hi : i ∉ st'.pending) :
    handleMcpMessage ⟨none, method, params, result, err⟩ st =
      { st with events := st.events ++ [ChannelEvent.notification method params] }
    ∧ handleMcpMessage ⟨some i, method, params, result, err⟩ st' = st' := by
  constructor
  · simp [handleMcpMessage]
  · simp [handleMcpMessage, hi]

/-- Witness for `c9_notification_vs_unmatched_id`: a notification line
`{"method": 1, "params": 2}` and an unmatched-id line `{"id": 5}`, both on
the empty channel state. -/
theorem c9_notification_witness :
    handleMcpMessage ⟨none, some 1, some 2, none, none⟩ ⟨[], [], []⟩ =
      ⟨[], [], [ChannelEvent.notification (some 1) (some 2)]⟩
    ∧ handleMcpMessage ⟨some 5, some 1, some 2, none, none⟩ ⟨[], [], []⟩ =
      ⟨[], [], []⟩ := by
  have h := c9_notification_vs_unmatched_id (some 1) (some 2) none none
    ⟨[], [], []⟩ ⟨[], [], []⟩ 5 (by decide)
  simpa using h

/-! ## `MCPStdioWrapper.start` (`mcp_stdio.py` lines 41–67)

Process handles are abstracted as `Nat`.  `start` is modelled as a state
transition parameterised by the outcome of
`asyncio.create_subprocess_shell`: `some p` when the launch yields process
handle `p`, `none` when it raises. -/

/-- The `self.process` field of one `MCPStdioWrapper`. -/
structure StdioProc where
  process : Option Nat
deriving DecidableEq, Repr

/-- `MCPStdioWrapper.start`: on a successful launch assigns `self.process`
and returns `True`; when the launch raises, returns `False` leaving
`self.process` untouched.  There is no check of `self.process` before
launching. -/
def start (launch : Option Nat) (st : StdioProc) : Bool × StdioProc :=
  match launch with
  | some p => (true, ⟨some p⟩)
  | none => (false, st)

/-- **C8 (counterexample)**: calling `start()` on a channel already holding
a running process (handle `0`) does not fail fast — it launches a second
process (handle `1`), returns `True`, and overwrites the process
reference. -/
theorem c8_start_counterexample :
    (start (some 1) ⟨some 0⟩).1 = true
    ∧ (start (some 1) ⟨some 0⟩).2.process = some 1
    ∧ (start (some 1) ⟨some 0⟩).2.process ≠ some 0 := by decide

/-- **C8 (amended)**: `start()` performs no already-running check: whenever
the launch succeeds it returns `True` and overwrites the process reference
with the new handle, whatever the previous state; a `start()` whose launch
fails returns `False` and leaves the process reference exactly as it was —
in particular a never-started channel still holds no process reference
after a failed start. -/
theorem c8_start_behavior :
    (∀ (st : StdioProc) (p : Nat), start (some p) st = (true, ⟨some p⟩))
    ∧ (∀ st : StdioProc, start none st = (false, st))
    ∧ (start none ⟨none⟩).2.process = none :=
  ⟨fun _ _ => rfl, fun _ => rfl, rfl⟩

/-! ## Session registry: `MCPSaaSSessionManager` (`transport.py` lines 234–376)

Session ids are `List Char` (Python strings).  The registry holds the
in-process `active_sessions` map (modelled by its key set — the live
`ClientSession` values are opaque) and the external record store, modelled
by the one field the sweep reads back: `last_activity`, as an integer
timestamp.  The store record is written with a TTL equal to the session
timeout, so a record can be absent while its id is still in the active
map. -/

/-- The session registry state: active-session ids and persisted
`last_activity` per session id. -/
structure SessionRegistry where
  active : List (List Char)
  store : List (List Char × Int)
deriving DecidableEq, Repr

/-- Remove the entry for one session id from the active map (the effect of
`active_sessions.pop(sid, ...)` on the key set). -/
def activeErase (sid : List Char) : List (List Char) → List (List Char)
  | [] => []
  | s :: t => if s = sid then activeErase sid t else s :: activeErase sid t

/-- Read a session's persisted `last_activity` (`hgetall` on the record). -/
def storeLookup (sid : List Char) : List (List Char × Int) → Option Int
  | [] => none
  | (k, v) :: t => if k = sid then some v else storeLookup sid t

/-- Delete a session's persisted record (`redis.delete`). -/
def storeErase (sid : List Char) : List (List Char × Int) → List (List Char × Int)
  | [] => []
  | (k, v) :: t => if k = sid then storeErase sid t else (k, v) :: storeErase sid t

/-- Store write `hset(f"mcp:session:{sid}", "last_activity", t)` (record
created or overwritten). -/
def storeSet (sid : List Char) (t : Int) (m : List (List Char × Int)) :
    List (List Char × Int) :=
  (sid, t) :: storeErase sid m

/-- `id(session_transport)`-based id generation in `create_session`:
`f"session-{instance_id}-{id(session_transport)}"`, with the CPython object
address rendered in decimal. -/
def sessionIdOf (instanceId : List Char) (transportAddr : Nat) : List Char :=
  "session-".toList ++ instanceId ++ '-' :: Nat.toDigits 10 transportAddr

/-- `MCPSaaSSessionManager.create_session`, connect succeeding: builds the
session id from the instance id and the transport object's address,
persists the record with `last_activity := now`, registers the id in
`active_sessions` (a plain dict assignment — an existing entry under the
same id is silently overwritten), and returns the id.  A connect/initialize
failure re-raises and is modelled by not calling this function. -/
def createSession (instanceId : List Char) (transportAddr : Nat) (now : Int)
    (reg : SessionRegistry) : List Char × SessionRegistry :=
  let sid := sessionIdOf instanceId transportAddr
  (sid,
   { active := sid :: activeErase sid reg.active,
     store := storeSet sid now reg.store })

/-- `MCPSaaSSessionManager.get_session`: returns the live session when the
id is in the active map (refreshing `last_activity` in the store), and
“not found” otherwise. -/
def getSession (sid : List Char) (now : Int) (reg : SessionRegistry) :
    Option Unit × SessionRegistry :=
  if sid ∈ reg.active then (some (), { reg with store := storeSet sid now reg.store })
  else (none, reg)

/-- `MCPSaaSSessionManager.close_session`: pops the id from the active map
(session close errors are swallowed) and deletes the persisted record. -/
def closeSession (sid : List Char) (reg : SessionRegistry) : SessionRegistry :=
  { active := activeErase sid reg.active,
    store := storeErase sid reg.store }

/-- The sweep's expiry test for one active id: a record missing from the
store counts as expired; otherwise the persisted `last_activity` must be
idle for strictly more than `timeout` seconds. -/
def sessionExpired (timeout now : Int) (store : List (List Char × Int))
    (sid : List Char) : Bool :=
  match storeLookup sid store with
  | none => true
  | some last => now - last > timeout

/-- `MCPSaaSSessionManager._cleanup_expired_sessions` (one sweep tick):
collects the active ids whose record is missing or idle past the timeout,
then closes each. -/
def cleanupExpiredSessions (timeout now : Int) (reg : SessionRegistry) :
    SessionRegistry :=
  (reg.active.filter (sessionExpired timeout now reg.store)).foldl
    (fun r sid => closeSession sid r) reg


/-! ### Sweep lemmas -/

theorem mem_of_mem_activeErase {s a : List Char} {l : List (List Char)}
    (h : s ∈ activeErase a l) : s ∈ l := by
  induction l with
  | nil => simp [activeErase] at h
  | cons b t ih =>
    by_cases hb : b = a
    · rw [activeErase, if_pos hb] at h
      exact List.mem_cons_of_mem b (ih h)
    · rw [activeErase, if_neg hb] at h
      rcases List.mem_cons.1 h with h | h
      · exact h ▸ List.mem_cons_self b t
      · exact List.mem_cons_of_mem b (ih h)

theorem not_mem_activeErase_self (a : List Char) (l : List (List Char)) :
    a ∉ activeErase a l := by
  induction l with
  | nil => simp [activeErase]
  | cons b t ih =>
    by_cases hb : b = a
    · rw [activeErase, if_pos hb]; exact ih
    · rw [activeErase, if_neg hb]
      intro h
      rcases List.mem_cons.1 h with h | h
      · exact hb h.symm
      · exact ih h

theorem storeLookup_storeErase_self (a : List Char) (m : List (List Char × Int)) :
    storeLookup a (storeErase a m) = none := by
  induction m with
  | nil => rfl
  | cons kv t ih =>
    obtain ⟨k, v⟩ := kv
    by_cases hk : k = a
    · rw [storeErase, if_pos hk]; exact ih
    · rw [storeErase, if_neg hk, storeLookup, if_neg hk]; exact ih

theorem storeLookup_storeErase_of_none (a sid : List Char)
    (m : List (List Char × Int)) (h : storeLookup sid m = none) :
    storeLookup sid (storeErase a m) = none := by
  induction m with
  | nil => rfl
  | cons kv t ih =>
    obtain ⟨k, v⟩ := kv
    by_cases hk : k = sid
    · rw [storeLookup, if_pos hk] at h; exact absurd h (by simp)
    · rw [storeLookup, if_neg hk] at h
      by_cases ha : k = a
      · rw [storeErase, if_pos ha]; exact ih h
      · rw [storeErase, if_neg ha, storeLookup, if_neg hk]; exact ih h

theorem foldl_close_active_not_mem (l : List (List Char)) :
    ∀ (reg : SessionRegistry) (sid : List Char), sid ∉ reg.active →
      sid ∉ (l.foldl (fun r s => closeSession s r) reg).active := by
  induction l with
  | nil => intro reg sid h; exact h
  | cons a t ih =>
    intro reg sid h
    exact ih (closeSession a reg) sid (fun hm => h (mem_of_mem_activeErase hm))

theorem foldl_close_active_removed (l : List (List Char)) :
    ∀ (reg : SessionRegistry) (sid : List Char), sid ∈ l →
      sid ∉ (l.foldl (fun r s => closeSession s r) reg).active := by
  induction l with
  | nil => intro reg sid h; exact absurd h (List.not_mem_nil sid)
  | cons a t ih =>
    intro reg sid h
    rcases List.mem_cons.1 h with h | h
    · subst h
      exact foldl_close_active_not_mem t (closeSession sid reg) sid
        (not_mem_activeErase_self sid reg.active)
    · exact ih (closeSession a reg) sid h

theorem foldl_close_store_none (l : List (List Char)) :
    ∀ (reg : SessionRegistry) (sid : List Char), storeLookup sid reg.store = none →
      storeLookup sid (l.foldl (fun r s => closeSession s r) reg).store = none := by
  induction l with
  | nil => intro reg sid h; exact h
  | cons a t ih =>
    intro reg sid h
    exact ih (closeSession a reg) sid (storeLookup_storeErase_of_none a sid reg.store h)

theorem foldl_close_store_removed (l : List (List Char)) :
    ∀ (reg : SessionRegistry) (sid : List Char), sid ∈ l →
      storeLookup sid (l.foldl (fun r s => closeSession s r) reg).store = none := by
  induction l with
  | nil => intro reg sid h; exact absurd h (List.not_mem_nil sid)
  | cons a t ih =>
    intro reg sid h
    rcases List.mem_cons.1 h with h | h
    · subst h
      exact foldl_close_store_none t (closeSession sid reg) sid
        (storeLookup_storeErase_self sid reg.store)
    · exact ih (closeSession a reg) sid h

/-- **C7**: any session in the active map that the sweep's expiry test
flags — its persisted `last_activity` is idle strictly longer than the
configured timeout, or its store record is missing (crashed externally) —
is closed by that sweep tick: it is removed from the active map and its
persisted record is deleted, so every subsequent `get_session` for that id
returns not-found. -/
theorem c7_sweep_closes_expired (timeout now later : Int) (reg : SessionRegistry)
    (sid : List Char) (hact : sid ∈ reg.active)
    (hexp : sessionExpired timeout now reg.store sid = true) :
    sid ∉ (cleanupExpiredSessions timeout now reg).active
    ∧ storeLookup sid (cleanupExpiredSessions timeout now reg).store = none
    ∧ (getSession sid later (cleanupExpiredSessions timeout now reg)).1 = none := by
  have hmem : sid ∈ reg.active.filter (sessionExpired timeout now reg.store) :=
    List.mem_filter.2 ⟨hact, hexp⟩
  have h1 : sid ∉ (cleanupExpiredSessions timeout now reg).active :=
    foldl_close_active_removed _ reg sid hmem
  have h2 : storeLookup sid (cleanupExpiredSessions timeout now reg).store = none :=
    foldl_close_store_removed _ reg sid hmem
  exact ⟨h1, h2, by simp [getSession, h1]⟩

/-- Witness for `c7_sweep_closes_expired`: session `"s"` with
`last_activity = 0`, timeout `300`, swept at time `301`. -/
theorem c7_sweep_witness :
    (['s'] ∈ (⟨[['s']], [(['s'], 0)]⟩ : SessionRegistry).active)
    ∧ sessionExpired 300 301 [(['s'], (0 : Int))] ['s'] = true
    ∧ ['s'] ∉ (cleanupExpiredSessions 300 301 ⟨[['s']], [(['s'], 0)]⟩).active
    ∧ (getSession ['s'] 400 (cleanupExpiredSessions 300 301 ⟨[['s']], [(['s'], 0)]⟩)).1 =
        none := by
  have h := c7_sweep_closes_expired 300 301 400 ⟨[['s']], [(['s'], 0)]⟩ ['s']
    (by decide) (by decide)
  exact ⟨by decide, by decide, h.1, h.2.2⟩

/-- **C6 (counterexample)**: two distinct successful `create_session` calls
(one at time `0`, one at time `5`) for the same instance `"inst"` over the
same transport object (address `7`) generate the *same* session id, and the
second call silently overwrites the first in the active-session map — the
registry ends with a single active entry and no error is raised. -/
theorem c6_session_id_counterexample :
    (createSession "inst".toList 7 0 ⟨[], []⟩).1 =
      (createSession "inst".toList 7 5 (createSession "inst".toList 7 0 ⟨[], []⟩).2).1
    ∧ (createSession "inst".toList 7 5
        (createSession "inst".toList 7 0 ⟨[], []⟩).2).2.active =
      (createSession "inst".toList 7 0 ⟨[], []⟩).2.active
    ∧ (createSession "inst".toList 7 5
        (createSession "inst".toList 7 0 ⟨[], []⟩).2).2.active.length = 1 := by
  decide

theorem activeErase_idem (sid : List Char) (l : List (List Char)) :
    activeErase sid (activeErase sid l) = activeErase sid l := by
  induction l with
  | nil => rfl
  | cons b t ih =>
    by_cases hb : b = sid
    · rw [activeErase, if_pos hb, ih]
    · rw [activeErase, if_neg hb, activeErase, if_neg hb, ih]

/-- **C6 (amended)**: the session id is the deterministic string
`f"session-{instance_id}-{id(transport)}"`, so a `create_session` call with
the same instance id and the same transport object as an earlier one
generates the identical id, succeeds, and silently overwrites the earlier
registration in the active-session map — there is no collision check and no
fatal error. -/
theorem c6_session_id_reuse (instanceId : List Char) (addr : Nat) (t1 t2 : Int)
    (reg : SessionRegistry) :
    (createSession instanceId addr t2 (createSession instanceId addr t1 reg).2).1 =
      (createSession instanceId addr t1 reg).1
    ∧ (createSession instanceId addr t2 (createSession instanceId addr t1 reg).2).2.active =
      (createSession instanceId addr t1 reg).2.active := by
  refine ⟨rfl, ?_⟩
  show sessionIdOf instanceId addr ::
      activeErase (sessionIdOf instanceId addr)
        (sessionIdOf instanceId addr ::
          activeErase (sessionIdOf instanceId addr) reg.active) =
    sessionIdOf instanceId addr :: activeErase (sessionIdOf instanceId addr) reg.active
  rw [activeErase, if_pos rfl, activeErase_idem]

/-! ## Composite router: `MCPSaaSComposite.mount` (`composite.py` lines 184–220)

The mount map `mounted_instances` is modelled as an association list from
prefix to instance id (the `MountedInstance`'s transport and session
wiring live in the session registry, threaded through `createSession`).
The three listing caches and their expiry are opaque snapshots.  `mount`
is parameterised by the outcome of the connection probe: `connectFail`
models `get_session` raising inside `create_session` (nothing was
registered), `listToolsFail` models `create_session` succeeding and the
follow-up `session.list_tools()` raising, `probeOk` a successful probe. -/

/-- Mount-map and cache state of one `MCPSaaSComposite`. -/
structure RouterState where
  mounted_instances : List (List Char × List Char)
  toolsCache : Option Nat
  resourcesCache : Option Nat
  promptsCache : Option Nat
  cacheExpiry : Option Int
deriving DecidableEq, Repr

/-- Router plus the session registry it drives through
`MountedInstance.get_session`. -/
structure CompositeSys where
  router : RouterState
  registry : SessionRegistry
deriving DecidableEq, Repr

/-- How the `verify_connection` probe inside `mount` turns out. -/
inductive ProbeOutcome where
  | connectFail
  | listToolsFail
  | probeOk
deriving DecidableEq, Repr

/-- Mount-map lookup `prefix in self.mounted_instances` /
`self.mounted_instances[prefix]`. -/
def mountLookup (pfx : List Char) : List (List Char × List Char) → Option (List Char)
  | [] => none
  | (k, v) :: t => if k = pfx then some v else mountLookup pfx t

/-- `MCPSaaSComposite._invalidate_cache`. -/
def invalidateCache (r : RouterState) : RouterState :=
  { r with toolsCache := none, resourcesCache := none, promptsCache := none,
           cacheExpiry := none }

/-- `MCPSaaSComposite.mount`: a prefix already in `mounted_instances` is
rejected immediately (`False`, nothing touched).  Otherwise, with
`verify_connection` set, the probe opens a session
(`MountedInstance.get_session` → `create_session`) and lists tools; any
exception is caught and `mount` returns `False` — but nothing undoes a
session registration that already happened.  On success (or with
verification off) the mount is registered and the caches invalidated. -/
def mount (instanceId pfx : List Char) (transportAddr : Nat) (now : Int)
    (verifyConnection : Bool) (probe : ProbeOutcome) (st : CompositeSys) :
    Bool × CompositeSys :=
  if (mountLookup pfx st.router.mounted_instances).isSome then (false, st)
  else if verifyConnection then
    match probe with
    | .connectFail => (false, st)
    | .listToolsFail =>
      (false, { st with registry := (createSession instanceId transportAddr now st.registry).2 })
    | .probeOk =>
      (true,
       { router := invalidateCache
           ({ st.router with
              mounted_instances := (pfx, instanceId) :: st.router.mounted_instances }),
         registry := (createSession instanceId transportAddr now st.registry).2 })
  else
    (true,
     { st with
       router := invalidateCache
         ({ st.router with
            mounted_instances := (pfx, instanceId) :: st.router.mounted_instances }) })

/-- **C4**: when a prefix is already mounted, a second `mount` call with
that prefix returns `False` and changes nothing at all — the whole router
state (mount map and caches) and the session registry are exactly as
before, and the first mount is still addressable under its prefix. -/
theorem c4_duplicate_mount_rejected (instanceId pfx : List Char) (addr : Nat)
    (now : Int) (verify : Bool) (probe : ProbeOutcome) (st : CompositeSys)
    (inst0 : List Char)
    (h : mountLookup pfx st.router.mounted_instances = some inst0) :
    mount instanceId pfx addr now verify probe st = (false, st)
    ∧ mountLookup pfx (mount instanceId pfx addr now verify probe st).2.router.mounted_instances =
        some inst0 := by
  have hs : (mountLookup pfx st.router.mounted_instances).isSome = true := by
    rw [h]; rfl
  constructor
  · rw [mount.eq_def, if_pos hs]
  · rw [mount.eq_def, if_pos hs]; exact h

/-- Witness for `c4_duplicate_mount_rejected`: instance `"b"` mounted onto
prefix `"p"` already occupied by instance `"a"`, with verification on and a
probe that would succeed. -/
theorem c4_duplicate_mount_witness :
    mount ['b'] ['p'] 7 0 true ProbeOutcome.probeOk
        ⟨⟨[(['p'], ['a'])], none, none, none, none⟩, ⟨[], []⟩⟩ =
      (false, ⟨⟨[(['p'], ['a'])], none, none, none, none⟩, ⟨[], []⟩⟩)
    ∧ mountLookup ['p']
        (mount ['b'] ['p'] 7 0 true ProbeOutcome.probeOk
          ⟨⟨[(['p'], ['a'])], none, none, none, none⟩, ⟨[], []⟩⟩).2.router.mounted_instances =
      some ['a'] :=
  c4_duplicate_mount_rejected ['b'] ['p'] 7 0 true ProbeOutcome.probeOk
    ⟨⟨[(['p'], ['a'])], none, none, none, none⟩, ⟨[], []⟩⟩ ['a'] (by decide)

/-- **C5 (counterexample)**: mounting instance `"i"` under prefix `"p"`
with `verify_connection` set, where `create_session` succeeds and the
capability probe (`session.list_tools()`) then fails: `mount` reports
failure and does not register the prefix, but the session created for the
probe *remains* registered in the session registry's active-session map and
persisted store — partial state survives the aborted mount. -/
theorem c5_probe_failure_counterexample :
    (mount ['i'] ['p'] 7 0 true ProbeOutcome.listToolsFail
        ⟨⟨[], none, none, none, none⟩, ⟨[], []⟩⟩).1 = false
    ∧ (mount ['i'] ['p'] 7 0 true ProbeOutcome.listToolsFail
        ⟨⟨[], none, none, none, none⟩, ⟨[], []⟩⟩).2.router.mounted_instances = []
    ∧ (mount ['i'] ['p'] 7 0 true ProbeOutcome.listToolsFail
        ⟨⟨[], none, none, none, none⟩, ⟨[], []⟩⟩).2.registry.active =
      [sessionIdOf ['i'] 7]
    ∧ storeLookup (sessionIdOf ['i'] 7)
        (mount ['i'] ['p'] 7 0 true ProbeOutcome.listToolsFail
          ⟨⟨[], none, none, none, none⟩, ⟨[], []⟩⟩).2.registry.store = some 0 := by
  decide

/-- **C5 (amended)**: a `verify_connection` mount whose probe fails is
aborted and reported as failure, and the prefix is not registered in the
router's mount map nor are the caches touched; but the cleanup is partial —
when the probe fails after session creation (the capability listing
raises), the session created for the probe remains registered in the
session registry's active-session map and persisted store.  Only when the
connection itself fails (nothing was created) is no state left at all. -/
theorem c5_probe_failure_partial_state (instanceId pfx : List Char) (addr : Nat)
    (now : Int) (st : CompositeSys)
    (h : mountLookup pfx st.router.mounted_instances = none) :
    mount instanceId pfx addr now true ProbeOutcome.connectFail st = (false, st)
    ∧ (mount instanceId pfx addr now true ProbeOutcome.listToolsFail st).1 = false
    ∧ (mount instanceId pfx addr now true ProbeOutcome.listToolsFail st).2.router = st.router
    ∧ sessionIdOf instanceId addr ∈
        (mount instanceId pfx addr now true ProbeOutcome.listToolsFail st).2.registry.active
    ∧ storeLookup (sessionIdOf instanceId addr)
        (mount instanceId pfx addr now true ProbeOutcome.listToolsFail st).2.registry.store =
      some now := by
  have hs : (mountLookup pfx st.router.mounted_instances).isSome = false := by
    rw [h]; rfl
  have hred : mount instanceId pfx addr now true ProbeOutcome.listToolsFail st =
      (false, { st with registry := (createSession instanceId addr now st.registry).2 }) := by
    rw [mount.eq_def, if_neg (by simp [hs]), if_pos rfl]
  refine ⟨?_, ?_, ?_, ?_, ?_⟩
  · rw [mount.eq_def, if_neg (by simp [hs]), if_pos rfl]
  · rw [hred]
  · rw [hred]
  · rw [hred]
    exact List.mem_cons_self _ _
  · rw [hred]
    show storeLookup (sessionIdOf instanceId addr)
      ((sessionIdOf instanceId addr, now) :: storeErase (sessionIdOf instanceId addr) st.registry.store) = some now
    rw [storeLookup, if_pos rfl]

/-- Witness for `c5_probe_failure_partial_state`: instance `"i"`, fresh
prefix `"p"`, transport address `7`, empty initial composite state. -/
theorem c5_probe_failure_witness :
    mount ['i'] ['q'] 7 0 true ProbeOutcome.connectFail
        ⟨⟨[], some 3, none, none, none⟩, ⟨[], []⟩⟩ =
      (false, ⟨⟨[], some 3, none, none, none⟩, ⟨[], []⟩⟩)
    ∧ sessionIdOf ['i'] 7 ∈
        (mount ['i'] ['q'] 7 0 true ProbeOutcome.listToolsFail
          ⟨⟨[], some 3, none, none, none⟩, ⟨[], []⟩⟩).2.registry.active :=
  have h := c5_probe_failure_partial_state ['i'] ['q'] 7 0
    ⟨⟨[], some 3, none, none, none⟩, ⟨[], []⟩⟩ (by decide)
  ⟨h.1, h.2.2.2.1⟩
